import Mathlib

/-!
Verification of the llamap crawler/summarizer core against its
natural-language specification.

The Rust sources are shallowly embedded:
* SQLite rows of the `pages` table become a list of `PageRow` values in
  rowid order (`INSERT OR REPLACE` on a TEXT primary key deletes the old
  row and appends a fresh one at the end of the rowid order).
* `chrono::DateTime<Utc>` values are modelled at second granularity as
  `Int` (every timestamp this program persists goes through
  `DateTime::timestamp()`, which yields whole seconds); the partial
  conversion `DateTime::from_timestamp(secs, 0)` becomes an
  `Option Int` that fails outside chrono's representable range.
* fallible Rust functions returning `anyhow::Result` become
  `Except String` values.
-/

namespace Llamap

/-- Model of `chrono::DateTime<Utc>` at second granularity. -/
abbrev Timestamp := Int

/-- Lower bound of chrono's representable `DateTime` range in seconds
(`DateTime::<Utc>::MIN_UTC.timestamp()`); the exact value is immaterial to
every claim below — only the existence of unrepresentable `i64` seconds
values matters. -/
def tsMinValid : Int := -8334601228800

/-- Upper bound of chrono's representable `DateTime` range in seconds
(`DateTime::<Utc>::MAX_UTC.timestamp()`). -/
def tsMaxValid : Int := 8210266876799

/-- Model of `chrono::DateTime::from_timestamp(secs, 0)`: succeeds exactly on
seconds values inside chrono's representable range, and is then the identity
under the second-granularity embedding. -/
def dtFromTimestamp (secs : Int) : Option Timestamp :=
  if tsMinValid ≤ secs ∧ secs ≤ tsMaxValid then some secs else none

/-- Abstraction of `url::Url::parse`.  The url crate accepts an absolute URL
beginning with a nonempty ASCII-alphabetic scheme followed by a colon and
rejects scheme-less input (`RelativeUrlWithoutBase`); this model keeps
exactly that acceptance test and treats parsing of an already-normalized URL
string as the identity (for the url crate, serializing a parsed URL and
re-parsing it is the identity, which is the only round-trip the embedded
code performs). -/
def schemeThenColon : List Char → Bool
  | [] => false
  | c :: rest => if c = ':' then true else c.isAlpha && schemeThenColon rest

/-- `url::Url::parse` on a string: `some` (the same string) when the string
starts with an ASCII-alphabetic, colon-terminated scheme, `none` otherwise. -/
def urlParse (s : String) : Option String :=
  match s.toList with
  | [] => none
  | c :: rest => if c.isAlpha && schemeThenColon rest then some s else none

/-- One row of the SQLite `pages` table (struct `PageRow` in storage.rs).
`title`, `text` and `summary` are nullable columns. -/
structure PageRow where
  url : String
  added_at : Int
  lastmod : Int
  html : String
  title : Option String
  text : Option String
  summary : Option String
deriving Repr, DecidableEq

/-- The domain struct `Page` in storage.rs.  `url` is a parsed `Url`
(modelled as its normalized string form) and the timestamps are
`DateTime<Utc>` values (modelled as seconds). -/
structure Page where
  url : String
  added_at : Timestamp
  lastmod : Timestamp
  html : String
  title : Option String
  text : Option String
  summary : Option String
deriving Repr, DecidableEq

/-- The `pages` table, in rowid order. -/
abbrev Store := List PageRow

/-- `SELECT ... FROM pages WHERE url = ?1` via the TEXT primary key:
the (unique, if the primary-key invariant holds) row with the given url. -/
def lookupRow (st : Store) (url : String) : Option PageRow :=
  st.find? (fun r => r.url = url)

/-- `Storage::list_urls`: `SELECT url FROM pages` in rowid order. -/
def list_urls (st : Store) : List String :=
  st.map (fun r => r.url)

/-- The column bindings of `Storage::upsert_page`'s `INSERT OR REPLACE`.
Note the binding of the `text` column:
`page.text.as_deref().unwrap_or_default()` stores the empty string — not
NULL — when `page.text` is `None`; `title` and `summary` are bound as
nullable options. -/
def pageToRow (page : Page) : PageRow :=
  { url := page.url
    added_at := page.added_at
    lastmod := page.lastmod
    html := page.html
    title := page.title
    text := some (page.text.getD "")
    summary := page.summary }

/-- `Storage::upsert_page`: `INSERT OR REPLACE INTO pages ...` keyed by the
TEXT primary key `url` — the conflicting row (if any) is deleted and the new
row is appended with a fresh rowid. -/
def upsert_page (st : Store) (page : Page) : Store :=
  st.filter (fun r => r.url ≠ page.url) ++ [pageToRow page]

/-- `TryFrom<PageRow> for Page`: re-parse the stored url and convert both
stored timestamps; any failure is an error. -/
def pageRowToPage (row : PageRow) : Except String Page :=
  match urlParse row.url with
  | none => Except.error "url parse error"
  | some u =>
    match dtFromTimestamp row.added_at, dtFromTimestamp row.lastmod with
    | some a, some l =>
        Except.ok
          { url := u, added_at := a, lastmod := l, html := row.html
            title := row.title, text := row.text, summary := row.summary }
    | _, _ => Except.error "Unable to initialize timestamp from database"

/-- `Storage::get_page`: fetch the row for the url (absence is `none`, not an
error) and convert it through `TryFrom<PageRow>`. -/
def get_page (st : Store) (url : String) : Except String (Option Page) :=
  match lookupRow st url with
  | none => Except.ok none
  | some row => (pageRowToPage row).map some

/-- `Storage::get_lastmod`: `SELECT lastmod FROM pages WHERE url = ?1`. -/
def get_lastmod (st : Store) (url : String) : Option Int :=
  (lookupRow st url).map (fun r => r.lastmod)

/-- The sitemap crate's `LastMod` variants: a concrete datetime, no lastmod
at all, or a value that failed to parse. -/
inductive LastMod where
  | dateTime (ts : Timestamp)
  | absent
  | parseErr
deriving Repr, DecidableEq

/-- `Storage::should_scrape`: for a concrete sitemap lastmod, look the url up
in the store (no row → scrape), convert the stored seconds value to a
`DateTime` (failure is an error), and scrape exactly on inequality; an
absent or unparsable sitemap lastmod always scrapes. -/
def should_scrape (st : Store) (url : String) (lastmod : LastMod) :
    Except String Bool :=
  match lastmod with
  | LastMod.dateTime ts =>
    match get_lastmod st url with
    | none => Except.ok true
    | some db_lastmod =>
      match dtFromTimestamp db_lastmod with
      | none => Except.error "Unable to convert timestamp to DateTime"
      | some db_dt => Except.ok (decide (ts ≠ db_dt))
  | LastMod.absent => Except.ok true
  | LastMod.parseErr => Except.ok true

/-- Rust `Result::unwrap_or` on an `Except`. -/
def unwrapOr (e : Except String Bool) (d : Bool) : Bool :=
  match e with
  | Except.ok b => b
  | Except.error _ => d

/-- `Storage::resolve_modified`: keep every sitemap url whose
`should_scrape` check returns true **or fails** (`unwrap_or(true)`); the
function itself always returns `Ok`.  The `HashMap` iteration becomes a list
of key/entry pairs. -/
def resolve_modified (st : Store) (entries : List (String × LastMod)) :
    Except String (List String) :=
  Except.ok (entries.filterMap (fun e =>
    if unwrapOr (should_scrape st e.1 e.2) true then some e.1 else none))

/-- `Storage::new` computes its `new` flag as
`std::path::Path::new(database_path).try_exists().is_err()`.
`Path::try_exists` returns `Ok(exists?)` — `Ok(false)` for a missing file —
and `Err` only when the existence check itself fails (e.g. a permission
error on the parent directory).  The flag is therefore the `isErr` of that
result, not the negation of existence. -/
def storageNewFlag (tryExistsResult : Except Unit Bool) : Bool :=
  match tryExistsResult with
  | Except.error _ => true
  | Except.ok _ => false

/-- The target-set selection in `setup_website_and_storage`: when
`storage.new` holds, take all sitemap keys (cold-start fast path); otherwise
run the Diff Resolver. -/
def selectScrapeUrls (isNew : Bool) (st : Store)
    (entries : List (String × LastMod)) : Except String (List String) :=
  if isNew then Except.ok (entries.map (fun e => e.1))
  else resolve_modified st entries

/-- One fetch-result event emitted by the crawl engine (spider's `Page` as
consumed in `process_sitemap`): the reported url, whether
`status_code.is_success()` held, the html, and the optional metadata
title. -/
structure FetchEvent where
  url : String
  statusSuccess : Bool
  html : String
  title : Option String
deriving Repr, DecidableEq

/-- One iteration of the intake loop in `process_sitemap`: a non-success
status pushes the url onto the failed-URL channel and writes nothing; a url
that fails `Url::parse` does the same; otherwise a fresh `Page` is assembled
(`added_at` and `lastmod` both `Utc::now()`, `text` and `summary` absent)
and upserted.  `now` is the current time at the event, `failed` the failed
channel contents so far. -/
def processEvent (st : Store) (failed : List String) (ev : FetchEvent)
    (now : Timestamp) : Store × List String :=
  if ev.statusSuccess = false then (st, failed ++ [ev.url])
  else
    match urlParse ev.url with
    | none => (st, failed ++ [ev.url])
    | some u =>
      (upsert_page st
        { url := u, added_at := now, lastmod := now, html := ev.html
          title := ev.title, text := none, summary := none },
       failed)

/-- `Storage::remove_unvisited_pages`: one bulk
`DELETE FROM pages WHERE url NOT IN (visited)`; returns the surviving store
and the number of deleted rows. -/
def remove_unvisited_pages (st : Store) (visited : List String) :
    Store × Nat :=
  let kept := st.filter (fun r => visited.contains r.url)
  (kept, st.length - kept.length)

/-- `cleanup_unvisited_pages`: start from the crawl engine's full visited-url
set, drop every url drained from the failed channel
(`retain(|url| url != failed_url)` per drained failure), then issue the one
bulk delete. -/
def cleanup_unvisited_pages (st : Store) (visited failed : List String) :
    Store × Nat :=
  let scraped := failed.foldl
    (fun acc f => acc.filter (fun url => url ≠ f)) visited
  remove_unvisited_pages st scraped

/-- The un-run future built by the async closure in `process_sitemap`'s last
statement, capturing its environment. -/
structure PendingCleanup where
  visited : List String
  failed : List String
deriving Repr, DecidableEq

/-- `bool::then` applied to the async closure: when the flag is true the
closure is called, which merely **constructs** the future (capturing its
arguments) without executing its body. -/
def thenAsync (old : Bool) (pending : PendingCleanup) :
    Option PendingCleanup :=
  if old then some pending else none

/-- The final statement of `process_sitemap`:
`storage.old.then(async || cleanup_unvisited_pages(..).await);`.
The produced `Option` of a future is immediately dropped — the future is
never awaited and never spawned — so the store that results from the run is
returned unchanged alongside the discarded value. -/
def process_sitemap_tail (old : Bool) (st : Store)
    (visited failed : List String) : Store × Option PendingCleanup :=
  (st, thenAsync old { visited := visited, failed := failed })

/-- The digest block `compose` writes for one page with summary `s`:
a heading line with a markdown link when the page has a title and the bare
url otherwise, then the summary, then a blank line
(`format!("## \x7b\x7d\n\x7b\x7d\n\n", heading, summary)`). -/
def pageBlock (page : Page) (s : String) : String :=
  "## " ++
    (match page.title with
     | some t => "[" ++ t ++ "](" ++ page.url ++ ")"
     | none => page.url) ++
  "\n" ++ s ++ "\n\n"

/-- The loop body of `compose` over the url list: look each url up
(`get_page`, propagating conversion errors via the surrounding function, a
missing row skips), skip pages whose `summary` is `None`, and append the
block for the rest. -/
def composeGo (st : Store) : List String → Except String String
  | [] => Except.ok ""
  | u :: rest =>
    match lookupRow st u with
    | none => composeGo st rest
    | some row =>
      match pageRowToPage row with
      | Except.error e => Except.error e
      | Except.ok page =>
        match page.summary with
        | none => composeGo st rest
        | some s => (composeGo st rest).map (fun tail => pageBlock page s ++ tail)

/-- `compose`: iterate `list_urls` and write one block per page whose
`summary` column is non-NULL (the emptiness of the summary is not
inspected). -/
def compose (st : Store) : Except String String :=
  composeGo st (list_urls st)

/-- The block the spec describes for a raw row, written in row terms. -/
def rowBlock (row : PageRow) : String :=
  "## " ++
    (match row.title with
     | some t => "[" ++ t ++ "](" ++ row.url ++ ")"
     | none => row.url) ++
  "\n" ++ row.summary.getD "" ++ "\n\n"

/-- Concatenation of a list of digest blocks, in order. -/
def concatBlocks : List String → String
  | [] => ""
  | b :: rest => b ++ concatBlocks rest

/-- Modelled from the spec (for comparison with `compose`): one block for
every store row carrying a **non-empty** summary, in store order. -/
def composeSpec (st : Store) : String :=
  concatBlocks ((st.filter
    (fun r => decide (r.summary ≠ none ∧ r.summary ≠ some ""))).map rowBlock)

/-- The behavior `compose` actually has, in row terms: one block for every
row whose summary is present, empty or not. -/
def composeAmended (st : Store) : String :=
  concatBlocks ((st.filter (fun r => r.summary.isSome)).map rowBlock)

/-- The `Page` a valid row converts to: the same data, field for field. -/
def rowPage (row : PageRow) : Page :=
  { url := row.url, added_at := row.added_at, lastmod := row.lastmod
    html := row.html, title := row.title, text := row.text
    summary := row.summary }

/-- Every row of the store converts cleanly back to a `Page`: its url
re-parses (to itself) and both timestamps are inside chrono's range, so
their conversions are the identity.  This is an invariant of stores written
by the program, since every persisted row comes from a `Page` holding a
parsed `Url` and real `DateTime` values. -/
def validStore (st : Store) : Bool :=
  st.all (fun r =>
    urlParse r.url = some r.url &&
    dtFromTimestamp r.added_at = some r.added_at &&
    dtFromTimestamp r.lastmod = some r.lastmod)

/-- All indices of `cs` at which `pat` occurs (as a prefix of the rest). -/
def prefixPositions (pat cs : List Char) : List Nat :=
  (List.range (cs.length + 1)).filter (fun i => pat.isPrefixOf (cs.drop i))

/-- The opening delimiter of a reasoning block (7 characters). -/
def openTag : List Char := "<think>".toList

/-- The closing delimiter of a reasoning block (8 characters). -/
def closeTag : List Char := "</think>".toList

/-- Length of the run of whitespace at the head of the list (the greedy
match of a whitespace-class star). -/
def wsRun : List Char → Nat
  | [] => 0
  | c :: rest => if c.isWhitespace then wsRun rest + 1 else 0

/-- The leftmost-greedy match of the regex
from `constants.rs` (an opening tag, any characters, a closing tag, then
trailing whitespace) inside `cs`: the start index of the leftmost opening
tag together with the index just past the **last** closing tag that follows
it (the any-characters star is greedy) and past the trailing whitespace.
`none` when the pattern does not match. -/
def thinkMatch (cs : List Char) : Option (Nat × Nat) :=
  match (prefixPositions openTag cs).head? with
  | none => none
  | some i =>
    match ((prefixPositions closeTag cs).filter (fun j => i + 7 ≤ j)).getLast? with
    | none => none
    | some j => some (i, j + 8 + wsRun (cs.drop (j + 8)))

/-- `Regex::replace_all` with the reasoning-block pattern and an empty
replacement: repeatedly remove the leftmost match and continue after it.
Each match is at least 15 characters long, so `cs.length` steps of fuel are
enough for the recursion to run to quiescence. -/
def replaceAllThink : Nat → List Char → List Char
  | 0, cs => cs
  | fuel + 1, cs =>
    match thinkMatch cs with
    | none => cs
    | some (i, e) => cs.take i ++ replaceAllThink fuel (cs.drop e)

/-- Rust `str::trim`: drop leading and trailing whitespace. -/
def trimChars (cs : List Char) : List Char :=
  ((cs.dropWhile Char.isWhitespace).reverse.dropWhile Char.isWhitespace).reverse

/-- The post-processing `summarize_page` applies to the raw model response:
strip every reasoning block with the compiled pattern, then trim surrounding
whitespace. -/
def summarizePostprocess (response : String) : String :=
  String.mk (trimChars (replaceAllThink response.length response.toList))

/-! ## Helper lemmas -/

/-- After an upsert, looking the page's url up finds exactly the freshly
inserted row. -/
theorem lookupRow_upsert (st : Store) (page : Page) :
    lookupRow (upsert_page st page) page.url = some (pageToRow page) := by
  unfold lookupRow upsert_page
  rw [List.find?_append]
  have h1 : (st.filter (fun r => r.url ≠ page.url)).find?
      (fun r => r.url = page.url) = none := by
    rw [List.find?_eq_none]
    intro x hx
    have hne := (List.mem_filter.mp hx).2
    simp only [decide_eq_true_eq] at hne ⊢
    exact hne
  rw [h1]
  have h2 : (List.find? (fun r => r.url = page.url) [pageToRow page])
      = some (pageToRow page) := by
    apply List.find?_cons_of_pos
    simp [pageToRow]
  rw [h2]
  rfl

/-! ## Example data used by the concrete theorems -/

def exEntries : List (String × LastMod) :=
  [("https://a/x", LastMod.dateTime 100), ("https://a/y", LastMod.absent)]

def rowA : PageRow :=
  { url := "https://a/", added_at := 1, lastmod := 1, html := "ha"
    title := none, text := some "ta", summary := none }

def rowB : PageRow :=
  { url := "https://b/", added_at := 2, lastmod := 2, html := "hb"
    title := none, text := some "tb", summary := none }

def rowC : PageRow :=
  { url := "https://c/", added_at := 3, lastmod := 3, html := "hc"
    title := none, text := some "tc", summary := none }

/-! ## Claims -/

/-- C1: the spec's cold-start fast path — "for a freshly created Page Store
the resolver is bypassed and the full sitemap URL set is used" — does not
hold of the code.  `Path::try_exists` yields `Ok(false)` for a missing
database file, so `Storage::new`'s flag `try_exists().is_err()` is `false`
on a cold start and the target-set selection takes the Diff Resolver
branch, contradicting the `new` field's own documentation.  The selected
URL *set* nevertheless equals the full sitemap key set, because the
resolver includes every URL when run against the empty store a fresh
database provides. -/
theorem c1_cold_start_flag_is_err_bug :
    storageNewFlag (Except.ok false) = false ∧
    selectScrapeUrls (storageNewFlag (Except.ok false)) [] exEntries
      = resolve_modified [] exEntries ∧
    resolve_modified [] exEntries
      = Except.ok (exEntries.map (fun e => e.1)) :=
  ⟨rfl, rfl, rfl⟩

/-- C2: no reconciliation delete is ever performed.  The final statement of
`process_sitemap` wraps `cleanup_unvisited_pages` in an async closure passed
to `bool::then`; calling the closure builds a future that is dropped without
being awaited, so the store is unchanged after the run even though the
claim (and the dead `info!` logging inside `cleanup_unvisited_pages`)
expects one bulk delete.  On the store `[rowA, rowB, rowC]` with visited set
`{a, b}` and no failures, the run leaves `rowC` in place, while the cleanup
the claim requires would have deleted exactly `rowC` (count 1). -/
theorem c2_cleanup_future_never_awaited :
    (process_sitemap_tail true [rowA, rowB, rowC]
        ["https://a/", "https://b/"] []).1 = [rowA, rowB, rowC] ∧
    lookupRow [rowA, rowB, rowC] "https://c/" = some rowC ∧
    cleanup_unvisited_pages [rowA, rowB, rowC]
        ["https://a/", "https://b/"] [] = ([rowA, rowB], 1) :=
  ⟨rfl, rfl, rfl⟩

/-- A page with absent `text`, used to refute the full round-trip claim. -/
def pNoText : Page :=
  { url := "https://a/", added_at := 0, lastmod := 0, html := "h"
    title := none, text := none, summary := none }

/-- C3 counterexample: the upsert/get round trip is **not** field-for-field.
For a page with absent `text`, `upsert_page` binds the `text` column to the
empty string (`as_deref().unwrap_or_default()`), so `get_page` returns
`Some("")` where the original page had `None`. -/
theorem c3_absent_text_not_roundtripped :
    get_page (upsert_page [] pNoText) pNoText.url
      = Except.ok (some { pNoText with text := some "" }) ∧
    (some "" : Option String) ≠ pNoText.text :=
  ⟨rfl, by decide⟩

/-- C3 amended: `upsert_page` then `get_page` returns a page equal to the
one written in every field except `text`, which comes back as
`some (text.getD "")` — unchanged when present, `Some("")` when absent.
The page's url must be a parsed URL (re-parsing its serialization is the
identity) and its timestamps inside chrono's range, both invariants of real
`Page` values. -/
theorem c3_upsert_get_roundtrip (st : Store) (p : Page)
    (hu : urlParse p.url = some p.url)
    (ha : dtFromTimestamp p.added_at = some p.added_at)
    (hl : dtFromTimestamp p.lastmod = some p.lastmod) :
    get_page (upsert_page st p) p.url
      = Except.ok (some { p with text := some (p.text.getD "") }) := by
  unfold get_page
  rw [lookupRow_upsert st p]
  simp [pageRowToPage, pageToRow, hu, ha, hl, Except.map]

/-- Witness for C3: the amended round trip evaluated on a concrete page with
all optional fields present. -/
theorem c3_upsert_get_roundtrip_witness :
    get_page (upsert_page [rowA]
        { url := "https://w/", added_at := 7, lastmod := 8, html := "hw"
          title := some "T", text := some "tw", summary := some "sw" })
        "https://w/"
      = Except.ok (some
        { url := "https://w/", added_at := 7, lastmod := 8, html := "hw"
          title := some "T", text := some "tw", summary := some "sw" }) :=
  c3_upsert_get_roundtrip [rowA]
    { url := "https://w/", added_at := 7, lastmod := 8, html := "hw"
      title := some "T", text := some "tw", summary := some "sw" }
    (by decide) (by decide) (by decide)

/-- The pre-existing row for the C4 counterexample, first persisted at
time 5. -/
def c4Row : PageRow :=
  { url := "https://a/", added_at := 5, lastmod := 5, html := "old"
    title := some "told", text := some "t", summary := some "s" }

/-- The later successful fetch event for the same URL. -/
def c4Event : FetchEvent :=
  { url := "https://a/", statusSuccess := true, html := "new", title := none }

/-- C4 counterexample: a later successful fetch does **not** leave
`added_at` unchanged.  The intake loop assembles a fresh page with
`added_at = Utc::now()` and `upsert_page` replaces the full row, so a row
first persisted at time 5 carries `added_at = 10` after a re-fetch at
time 10. -/
theorem c4_refetch_changes_added_at :
    (lookupRow [c4Row] "https://a/").map (fun r => r.added_at) = some 5 ∧
    (lookupRow (processEvent [c4Row] [] c4Event 10).1 "https://a/").map
      (fun r => r.added_at) = some 10 :=
  ⟨rfl, rfl⟩

/-- C4 amended: a successful fetch processed by the intake pipeline replaces
the row wholesale — after the event, the row for the URL holds the fetch
time as both `added_at` and `lastmod`, the fetched html and metadata title,
`text` as the empty string and no summary, whatever row (if any) existed
before.  `added_at` is preserved by the text/summary update operations, not
by intake re-fetches. -/
theorem c4_refetch_overwrites_row (st : Store) (failed : List String)
    (ev : FetchEvent) (now : Timestamp) (u : String)
    (hs : ev.statusSuccess = true) (hp : urlParse ev.url = some u) :
    lookupRow (processEvent st failed ev now).1 u
      = some { url := u, added_at := now, lastmod := now, html := ev.html
               title := ev.title, text := some "", summary := none } := by
  unfold processEvent
  rw [hs, hp]
  simp only [Bool.true_eq_false, if_false]
  exact lookupRow_upsert st _

/-- Witness for C4: the amended overwrite theorem evaluated on the concrete
counterexample data. -/
theorem c4_refetch_overwrites_row_witness :
    c4Event.statusSuccess = true ∧
    urlParse c4Event.url = some "https://a/" ∧
    lookupRow (processEvent [c4Row] [] c4Event 10).1 "https://a/"
      = some { url := "https://a/", added_at := 10, lastmod := 10
               html := "new", title := none, text := some "", summary := none } :=
  ⟨rfl, by decide,
    c4_refetch_overwrites_row [c4Row] [] c4Event 10 "https://a/" rfl (by decide)⟩

/-- The guard `resolve_modified` applies to one sitemap entry. -/
def resolveGuard (st : Store) (e : String × LastMod) : Option String :=
  if unwrapOr (should_scrape st e.1 e.2) true then some e.1 else none

/-- `resolve_modified` is the `Ok` of the filterMap of the guard. -/
theorem resolve_modified_eq (st : Store) (entries : List (String × LastMod)) :
    resolve_modified st entries = Except.ok (entries.filterMap (resolveGuard st)) :=
  rfl

/-- Everything the resolver keeps is a key of the entry map. -/
theorem resolve_mem_keys {st : Store} {entries : List (String × LastMod)}
    {u : String} (h : u ∈ entries.filterMap (resolveGuard st)) :
    u ∈ entries.map Prod.fst := by
  rcases List.mem_filterMap.mp h with ⟨e, he, hfe⟩
  unfold resolveGuard at hfe
  by_cases hg : unwrapOr (should_scrape st e.1 e.2) true = true
  · rw [if_pos hg] at hfe
    exact List.mem_map.mpr ⟨e, he, Option.some.inj hfe⟩
  · rw [if_neg hg] at hfe
    cases hfe

/-- With no duplicate sitemap keys (a `HashMap` has none), a key is kept by
the resolver exactly when its entry's `should_scrape` check returns true or
fails. -/
theorem mem_resolve_iff (st : Store) (entries : List (String × LastMod))
    (u : String) (lm : LastMod) (hmem : (u, lm) ∈ entries)
    (hnd : (entries.map Prod.fst).Nodup) :
    (u ∈ entries.filterMap (resolveGuard st)
      ↔ unwrapOr (should_scrape st u lm) true = true) := by
  induction entries with
  | nil => cases hmem
  | cons a rest ih =>
    rw [List.map_cons, List.nodup_cons] at hnd
    rcases List.mem_cons.mp hmem with heq | hmemr
    · subst heq
      by_cases hg : unwrapOr (should_scrape st u lm) true = true
      · simp [List.filterMap_cons, resolveGuard, hg]
      · rw [List.filterMap_cons]
        unfold resolveGuard
        rw [if_neg hg]
        constructor
        · intro hin
          exact absurd (resolve_mem_keys hin) hnd.1
        · intro h
          exact absurd h hg
    · have hkey : u ∈ rest.map Prod.fst :=
        List.mem_map.mpr ⟨(u, lm), hmemr, rfl⟩
      have hane : ¬(a.1 = u) := fun h => hnd.1 (h ▸ hkey)
      rw [List.filterMap_cons]
      unfold resolveGuard
      by_cases hg : unwrapOr (should_scrape st a.1 a.2) true = true
      · rw [if_pos hg]
        rw [List.mem_cons]
        constructor
        · intro h
          rcases h with h | h
          · exact absurd h.symm hane
          · exact (ih hmemr hnd.2).mp h
        · intro h
          exact Or.inr ((ih hmemr hnd.2).mpr h)
      · rw [if_neg hg]
        exact ih hmemr hnd.2

/-- C5: the Diff Resolver's per-URL contract on an existing store.  For a
sitemap entry processed by `resolve_modified`: a URL with no store row is
included; an absent or unparsable lastmod is included; a concrete lastmod
over an existing row (whose stored seconds value converts, as every value
the program writes does) is included exactly when it differs from the
stored `lastmod`. -/
theorem c5_diff_resolver_per_url (st : Store)
    (entries : List (String × LastMod)) (u : String) (lm : LastMod)
    (L : List String)
    (hmem : (u, lm) ∈ entries) (hnd : (entries.map Prod.fst).Nodup)
    (hres : resolve_modified st entries = Except.ok L) :
    (lookupRow st u = none → u ∈ L) ∧
    (lm = LastMod.absent → u ∈ L) ∧
    (lm = LastMod.parseErr → u ∈ L) ∧
    (∀ ts row, lm = LastMod.dateTime ts → lookupRow st u = some row →
      dtFromTimestamp row.lastmod = some row.lastmod →
      (u ∈ L ↔ ts ≠ row.lastmod)) := by
  have hL : L = entries.filterMap (resolveGuard st) := by
    have := (resolve_modified_eq st entries) ▸ hres
    exact (Except.ok.inj this).symm
  subst hL
  have hiff := mem_resolve_iff st entries u lm hmem hnd
  refine ⟨?_, ?_, ?_, ?_⟩
  · intro hlk
    apply hiff.mpr
    cases lm with
    | dateTime ts => simp [should_scrape, get_lastmod, hlk, unwrapOr]
    | absent => simp [should_scrape, unwrapOr]
    | parseErr => simp [should_scrape, unwrapOr]
  · intro h
    subst h
    exact hiff.mpr (by simp [should_scrape, unwrapOr])
  · intro h
    subst h
    exact hiff.mpr (by simp [should_scrape, unwrapOr])
  · intro ts row hlm hlk hconv
    subst hlm
    rw [hiff]
    simp [should_scrape, get_lastmod, hlk, hconv, unwrapOr]

/-- Store and sitemap for the C5 witness: the stored row for url a has
lastmod 1; the sitemap reports an unchanged lastmod 1 for a and a brand-new
url. -/
def c5Entries : List (String × LastMod) :=
  [("https://a/", LastMod.dateTime 1), ("https://new/", LastMod.dateTime 9)]

/-- Witness for C5: on the concrete store `[rowA]`, the unchanged url a is
excluded and only the new url is selected. -/
theorem c5_diff_resolver_witness :
    resolve_modified [rowA] c5Entries = Except.ok ["https://new/"] ∧
    ("https://a/" ∈ ["https://new/"] ↔ (1 : Int) ≠ 1) :=
  ⟨rfl,
    (c5_diff_resolver_per_url [rowA] c5Entries "https://a/" (LastMod.dateTime 1)
      ["https://new/"] (by decide) (by decide) rfl).2.2.2 1 rowA rfl rfl
      (by decide)⟩

/-- C6: a fetch event with a non-success status, or whose URL fails to
parse, writes nothing to the Page Store — the store is untouched, no row
created or modified — and the URL is pushed onto the failed-URL channel
consumed later by reconciliation. -/
theorem c6_failed_fetch_no_write (st : Store) (failed : List String)
    (ev : FetchEvent) (now : Timestamp)
    (h : ev.statusSuccess = false ∨ urlParse ev.url = none) :
    (processEvent st failed ev now).1 = st ∧
    ev.url ∈ (processEvent st failed ev now).2 := by
  rcases h with h | h
  · unfold processEvent
    rw [h]
    simp
  · unfold processEvent
    rcases hs : ev.statusSuccess with _ | _
    · simp
    · rw [h]
      simp

/-- Witness for C6: a concrete 404-style event over a nonempty store leaves
the store alone and lands on the failed channel. -/
theorem c6_failed_fetch_no_write_witness :
    ({ url := "https://a/", statusSuccess := false, html := "err"
       title := none } : FetchEvent).statusSuccess = false ∧
    (processEvent [rowA] [] { url := "https://a/", statusSuccess := false
                              html := "err", title := none } 10).1 = [rowA] ∧
    "https://a/" ∈ (processEvent [rowA] []
      { url := "https://a/", statusSuccess := false, html := "err"
        title := none } 10).2 :=
  ⟨rfl,
    (c6_failed_fetch_no_write [rowA] []
      { url := "https://a/", statusSuccess := false, html := "err"
        title := none } 10 (Or.inl rfl)).1,
    (c6_failed_fetch_no_write [rowA] []
      { url := "https://a/", statusSuccess := false, html := "err"
        title := none } 10 (Or.inl rfl)).2⟩

/-- C10: `resolve_modified` is total — it returns `Ok` — and when the
per-URL `should_scrape` check itself fails (here: a stored lastmod outside
chrono's convertible range), the URL is included in the scrape set instead
of the error propagating. -/
theorem c10_resolve_fail_open (st : Store)
    (entries : List (String × LastMod)) (u : String) (lm : LastMod)
    (hmem : (u, lm) ∈ entries)
    (herr : ∃ err, should_scrape st u lm = Except.error err) :
    ∃ L, resolve_modified st entries = Except.ok L ∧ u ∈ L := by
  refine ⟨entries.filterMap (resolveGuard st), resolve_modified_eq st entries, ?_⟩
  apply List.mem_filterMap.mpr
  refine ⟨(u, lm), hmem, ?_⟩
  rcases herr with ⟨err, herr⟩
  unfold resolveGuard
  rw [if_pos]
  simp [unwrapOr, herr]

/-- A store row whose lastmod seconds value lies outside chrono's
representable `DateTime` range, so `should_scrape` fails on it. -/
def rowHuge : PageRow :=
  { url := "https://a/", added_at := 1, lastmod := 10000000000000000
    html := "ha", title := none, text := none, summary := none }

/-- Witness for C10: over the store holding `rowHuge`, the entry for its url
fails the freshness check and is nevertheless selected. -/
theorem c10_resolve_fail_open_witness :
    ("https://a/", LastMod.dateTime 1)
        ∈ [("https://a/", LastMod.dateTime 1)] ∧
    should_scrape [rowHuge] "https://a/" (LastMod.dateTime 1)
      = Except.error "Unable to convert timestamp to DateTime" ∧
    ∃ L, resolve_modified [rowHuge] [("https://a/", LastMod.dateTime 1)]
      = Except.ok L ∧ "https://a/" ∈ L :=
  ⟨by decide, rfl,
    c10_resolve_fail_open [rowHuge] [("https://a/", LastMod.dateTime 1)]
      "https://a/" (LastMod.dateTime 1) (by decide)
      ⟨"Unable to convert timestamp to DateTime", rfl⟩⟩

/-- C8: post-processing of the summarization response strips a
reasoning block and the whitespace that follows it, removes an empty
reasoning block the same way, and trims surrounding whitespace from the
result. -/
theorem c8_think_block_stripping :
    summarizePostprocess "<think>reasoning</think>\nSummary body"
      = "Summary body" ∧
    summarizePostprocess "<think></think>\nSummary body" = "Summary body" ∧
    summarizePostprocess "  <think>reasoning</think>  Summary body  "
      = "Summary body" :=
  ⟨by decide, by decide, by decide⟩

/-- A row whose summary is present but empty, reachable e.g. via
`update_page_summary(url, "")` or a summarization response that was an empty
reasoning block. -/
def c7Row : PageRow :=
  { url := "https://a/", added_at := 1, lastmod := 1, html := "h"
    title := none, text := some "t", summary := some "" }

/-- C7 counterexample: `compose` does not skip empty summaries.  For a row
whose summary is the empty string, the spec-worded output has no block, but
the code writes one (heading line, empty summary line, blank line) — it only
pattern-matches `summary` against `Some`, never inspecting emptiness. -/
theorem c7_empty_summary_block_written :
    compose [c7Row] = Except.ok "## https://a/\n\n\n" ∧
    composeSpec [c7Row] = "" ∧
    "## https://a/\n\n\n" ≠ "" :=
  ⟨rfl, rfl, by decide⟩

/-- `composeGo` only consults the store through `lookupRow`, so stores that
agree on the looked-up urls compose alike. -/
theorem composeGo_congr (st₁ st₂ : Store) (urls : List String)
    (h : ∀ u ∈ urls, lookupRow st₁ u = lookupRow st₂ u) :
    composeGo st₁ urls = composeGo st₂ urls := by
  induction urls with
  | nil => rfl
  | cons u rest ih =>
    have hu : lookupRow st₁ u = lookupRow st₂ u :=
      h u (List.mem_cons_self u rest)
    have hrest := ih (fun v hv => h v (List.mem_cons_of_mem u hv))
    simp only [composeGo, hu, hrest]

/-- A valid row converts to exactly the `Page` carrying its data. -/
theorem pageRowToPage_valid (r : PageRow)
    (hu : urlParse r.url = some r.url)
    (ha : dtFromTimestamp r.added_at = some r.added_at)
    (hl : dtFromTimestamp r.lastmod = some r.lastmod) :
    pageRowToPage r = Except.ok (rowPage r) := by
  simp [pageRowToPage, rowPage, hu, ha, hl]

/-- C7 amended: over a store of valid rows with distinct urls, `compose`
writes one digest block for every row whose summary is **present** (whether
or not it is empty) — a heading line with a markdown `[title](url)` link
when the row has a title and the bare url otherwise, then the summary, then
a blank line, in the store's native listing order — and no block for rows
whose summary is absent. -/
theorem c7_compose_presence_only (st : Store) (hv : validStore st = true)
    (hnd : (list_urls st).Nodup) :
    compose st = Except.ok (composeAmended st) := by
  induction st with
  | nil => rfl
  | cons r rest ih =>
    have hnd2 : r.url ∉ list_urls rest ∧ (list_urls rest).Nodup :=
      List.nodup_cons.mp hnd
    have hv2 := hv
    unfold validStore at hv2
    rw [List.all_cons, Bool.and_eq_true] at hv2
    obtain ⟨hr, hrest⟩ := hv2
    rw [Bool.and_eq_true, Bool.and_eq_true] at hr
    obtain ⟨⟨hu, ha⟩, hl⟩ := hr
    rw [decide_eq_true_eq] at hu ha hl
    have hvrest : validStore rest = true := hrest
    have hcongr : composeGo (r :: rest) (list_urls rest)
        = composeGo rest (list_urls rest) := by
      apply composeGo_congr
      intro u hu2
      have hne : ¬(r.url = u) := fun hh => hnd2.1 (hh ▸ hu2)
      unfold lookupRow
      exact List.find?_cons_of_neg _ (by simpa using hne)
    have hhead : lookupRow (r :: rest) r.url = some r := by
      unfold lookupRow
      exact List.find?_cons_of_pos _ (by simp)
    have hrec : composeGo rest (list_urls rest)
        = Except.ok (composeAmended rest) := ih hvrest hnd2.2
    show composeGo (r :: rest) (r.url :: list_urls rest) = _
    rcases hsum : r.summary with _ | s
    · simp only [composeGo, hhead, pageRowToPage_valid r hu ha hl, hcongr,
        hrec, rowPage, hsum, composeAmended, List.filter_cons, Option.isSome]
      simp
    · simp only [composeGo, hhead, pageRowToPage_valid r hu ha hl, hcongr,
        hrec, rowPage, hsum, composeAmended, List.filter_cons, Option.isSome]
      simp [pageBlock, rowBlock, concatBlocks, hsum, Except.map]

/-- A summarized row for the C7 witness. -/
def c7wRow : PageRow :=
  { url := "https://w/", added_at := 1, lastmod := 1, html := "h"
    title := some "W", text := some "t", summary := some "sum" }

/-- Witness for C7: on a concrete two-row store (one summarized row, one
without a summary), `compose` produces exactly the one block of the
summarized row. -/
theorem c7_compose_presence_only_witness :
    validStore [c7wRow, rowB] = true ∧
    (list_urls [c7wRow, rowB]).Nodup ∧
    compose [c7wRow, rowB] = Except.ok (composeAmended [c7wRow, rowB]) ∧
    composeAmended [c7wRow, rowB] = "## [W](https://w/)\nsum\n\n" :=
  ⟨by decide, by decide,
    c7_compose_presence_only [c7wRow, rowB] (by decide) (by decide), rfl⟩

end Llamap
